import Mathlib

/-!
Shallow embedding of the `c_hash_table` repository (src/src/hash_table.c).

Modelling conventions:
* A key is the byte sequence the caller passes: `Key := List Nat`, whose
  length plays the role of the C `key_size` argument (the C API reads exactly
  `key_size` bytes from the key pointer).
* A value is the C `void *` pointer: `Val := Option Nat`, with `none`
  standing for `NULL` (insert accepts `NULL` values; `get` returns `NULL`
  both for "absent" and for a stored `NULL`).
* `size_t` arithmetic in the hash function wraps modulo `2 ^ 64`.
* The C `float` fields `_resize_threshold` and `_resize_factor` are modelled
  as exact rationals; the counterexamples below only use dyadic values on
  which IEEE single-precision arithmetic is exact, so the rational model and
  the float computation agree on them.  A `capacity` of `0` makes the load
  check `(float)(size + 1) / capacity` evaluate to `+inf`, which compares
  greater than any finite threshold; this is modelled by the explicit
  `capacity == 0` disjunct of `insertTrigger`.
* Allocation is nondeterministic in C; each operation takes an oracle saying
  which of its allocations succeed.  The three `calloc`s of a resize are
  collapsed into one flag because every combination of their failures leads
  to the same observable restore-and-fail path.
* Reaching the integer modulus `hash % capacity` with `capacity = 0` is
  division by zero (undefined behavior); operations that can reach it return
  an `Option`, with `none` marking exactly that event.
* The value destructor is not interpreted; instead each mutating operation
  reports the list of value pointers it passed to the destructor (or `free`).
-/

abbrev Key := List Nat

abbrev Val := Option Nat

structure HashTable where
  capacity : Nat
  keys : List (Option Key)
  key_sizes : List Nat
  values : List Val
  size : Nat
  resize_threshold : ℚ
  resize_factor : ℚ
  deriving DecidableEq, Repr

/-- The FNV-1a hash of `hash_table.c` (32-bit constants, `size_t` arithmetic,
so every multiplication wraps modulo `2 ^ 64`). -/
def hash_table_fnv_1a (key : List Nat) : Nat :=
  key.foldl (fun h b => ((h ^^^ b) * 0x1000193) % 2 ^ 64) 0x811C9DC5

/-- The slot-match test shared by the get/insert/remove probe loops:
`table->key_sizes[index] == key_size && memcmp(table->keys[index], key, key_size) == 0`. -/
def slotMatches (t : HashTable) (index : Nat) (k : Key) : Bool :=
  t.key_sizes.getD index 0 == k.length && t.keys.getD index none == some k

/-- The probe loop of `hash_table_get`.  The second component counts the loop
iterations executed (the C variable `iterations`); the fuel argument is
`capacity - iterations`, so the loop guard `iterations < capacity`
corresponds to nonzero fuel.  Exhausted fuel and an empty slot both make the
C loop exit and return `NULL`. -/
def getLoop (t : HashTable) (k : Key) : Nat → Nat → Val × Nat
  | _, 0 => (none, 0)
  | index, fuel + 1 =>
    match t.keys.getD index none with
    | none => (none, 0)
    | some _ =>
      if slotMatches t index k then (t.values.getD index none, 0)
      else
        let r := getLoop t k ((index + 1) % t.capacity) fuel
        (r.1, r.2 + 1)

/-- Model of `hash_table_get` (the `table == NULL` / `key == NULL` guards of
the C code are outside the model: a table value and a key list always
exist).  `none` models reaching `hash % capacity` with `capacity = 0`. -/
def hash_table_get (t : HashTable) (k : Key) : Option Val :=
  if t.capacity = 0 then none
  else some (getLoop t k (hash_table_fnv_1a k % t.capacity) t.capacity).1

/-- Model of `hash_table_contains`: `hash_table_get(...) != NULL`. -/
def hash_table_contains (t : HashTable) (k : Key) : Option Bool :=
  (hash_table_get t k).map fun v => v.isSome

/-- Allocation oracle for `hash_table_insert` and the `hash_table_resize` it
may trigger. -/
structure AllocOracle where
  resizeAlloc : Bool
  keyAlloc : Bool
  deriving DecidableEq, Repr

/-- The probe loop of `hash_table_resize` (no key comparison: it only looks
for an empty slot).  Returns the final `index` together with the number of
iterations executed.  Exhausted fuel returns the current index, exactly as
the C loop falls through to the move at whatever `index` it stopped on. -/
def placeLoop (keys : List (Option Key)) (cap : Nat) : Nat → Nat → Nat × Nat
  | index, 0 => (index, 0)
  | index, fuel + 1 =>
    match keys.getD index none with
    | none => (index, 0)
    | some _ =>
      let r := placeLoop keys cap ((index + 1) % cap) fuel
      (r.1, r.2 + 1)

/-- One iteration of the rehash loop of `hash_table_resize`: if old slot `i`
is occupied, move its key, key size and value into the new arrays at the
probed position and increment `size`.  The C code hashes
`old_key_sizes[i]` bytes of the stored key buffer, i.e. `k.take ks` (equal
to `k` whenever the stored size matches the stored buffer, which holds in
every state the code itself builds). -/
def rehashStep (t : HashTable) (acc : HashTable) (i : Nat) : HashTable :=
  match t.keys.getD i none with
  | none => acc
  | some k =>
    let ks := t.key_sizes.getD i 0
    let start := hash_table_fnv_1a (k.take ks) % acc.capacity
    let p := placeLoop acc.keys acc.capacity start acc.capacity
    { acc with
      keys := acc.keys.set p.1 (some k)
      key_sizes := acc.key_sizes.set p.1 ks
      values := acc.values.set p.1 (t.values.getD i none)
      size := acc.size + 1 }

/-- Model of the static `hash_table_resize`.  The `Bool` component is the C
return value (`true` = returned 1 = failure).  On `new_capacity <= capacity`
or a failed `calloc` the old arrays are restored and the table is unchanged;
otherwise the entries are rehashed into fresh zeroed arrays of
`new_capacity` slots and `size` is recomputed during the migration. -/
def hash_table_resize (o : AllocOracle) (t : HashTable) (new_capacity : Nat) :
    Bool × HashTable :=
  if new_capacity ≤ t.capacity then (true, t)
  else if o.resizeAlloc = false then (true, t)
  else
    (false,
      (List.range t.capacity).foldl (rehashStep t)
        { t with
          capacity := new_capacity
          keys := List.replicate new_capacity none
          key_sizes := List.replicate new_capacity 0
          values := List.replicate new_capacity (none : Val)
          size := 0 })

/-- The load-factor test of `hash_table_insert`:
`(float)(table->size + 1) / table->capacity > table->_resize_threshold`.
With `capacity = 0` the float quotient is `+inf`, greater than every finite
threshold, hence the explicit first disjunct.  For `capacity > 0` the
rational comparison `(size + 1) / capacity > num/den` is computed in exact
cross-multiplied integer form (`den > 0` always holds for a `Rat`); the
lemma `insertTrigger_eq_false_iff` below relates it back to the rational
inequality. -/
def insertTrigger (t : HashTable) : Bool :=
  t.capacity == 0 ||
    t.resize_threshold.num * t.capacity <
      (t.size + 1 : Int) * t.resize_threshold.den

/-- The new capacity requested by `hash_table_insert`:
`(size_t)(table->capacity * table->_resize_factor)`.  The C cast truncates
toward zero, which integer `Int` division implements exactly for the
rational product `capacity * num/den`. -/
def growCapacity (t : HashTable) : Nat :=
  ((t.capacity : Int) * t.resize_factor.num / (t.resize_factor.den : Int)).toNat

/-- The probe loop of `hash_table_insert`: `Sum.inl index` is the
update-in-place exit (matching key found), `Sum.inr index` the exit into the
new-pair branch (empty slot, or fuel exhausted — in which case the C code
falls through and stores over whatever `index` it stopped on).  The second
component counts iterations. -/
def insertLoop (t : HashTable) (k : Key) : Nat → Nat → (Nat ⊕ Nat) × Nat
  | index, 0 => (Sum.inr index, 0)
  | index, fuel + 1 =>
    match t.keys.getD index none with
    | none => (Sum.inr index, 0)
    | some _ =>
      if slotMatches t index k then (Sum.inl index, 0)
      else
        let r := insertLoop t k ((index + 1) % t.capacity) fuel
        (r.1, r.2 + 1)

structure InsertResult where
  ret : Nat
  table : HashTable
  destroyed : List Val
  deriving DecidableEq, Repr

/-- The part of `hash_table_insert` after the resize check: probe, then
either destroy the old value and store the new one in place (key found), or
allocate a copy of the key and fill the slot (`size += 1`).  A failed key
`malloc` returns 1 with the table untouched *by this part*.  `none` models
reaching `hash % capacity` with `capacity = 0`. -/
def insertCore (o : AllocOracle) (t : HashTable) (k : Key) (v : Val) :
    Option InsertResult :=
  if t.capacity = 0 then none
  else
    match insertLoop t k (hash_table_fnv_1a k % t.capacity) t.capacity with
    | (Sum.inl index, _) =>
      some ⟨0, { t with values := t.values.set index v },
        [t.values.getD index none]⟩
    | (Sum.inr index, _) =>
      if o.keyAlloc then
        some ⟨0,
          { t with
            keys := t.keys.set index (some k)
            key_sizes := t.key_sizes.set index k.length
            values := t.values.set index v
            size := t.size + 1 }, []⟩
      else some ⟨1, t, []⟩

/-- Model of `hash_table_insert`: if the load check triggers, resize first
(to `growCapacity`), failing the whole call if the resize fails; then run
the probe-and-store logic on the (possibly resized) table.  The C code binds
the single resize call to a local; here the same application is written
twice, which is observably identical because `hash_table_resize` is a pure
function of its arguments. -/
def hash_table_insert (o : AllocOracle) (t : HashTable) (k : Key) (v : Val) :
    Option InsertResult :=
  if insertTrigger t then
    if (hash_table_resize o t (growCapacity t)).1 then
      some ⟨1, (hash_table_resize o t (growCapacity t)).2, []⟩
    else insertCore o (hash_table_resize o t (growCapacity t)).2 k v
  else insertCore o t k v

/-- The probe loop of `hash_table_remove`; returns the matched index (if
any) and the iteration count. -/
def removeLoop (t : HashTable) (k : Key) : Nat → Nat → Option Nat × Nat
  | _, 0 => (none, 0)
  | index, fuel + 1 =>
    match t.keys.getD index none with
    | none => (none, 0)
    | some _ =>
      if slotMatches t index k then (some index, 0)
      else
        let r := removeLoop t k ((index + 1) % t.capacity) fuel
        (r.1, r.2 + 1)

/-- Model of `hash_table_remove`: on a match, free the key buffer, destroy
the value, clear the slot and decrement `size` (a matched slot in any state
the code builds has `size ≥ 1`, so `Nat` subtraction agrees with `size_t`);
otherwise do nothing.  The returned list holds the value pointers passed to
the destructor (or `free`).  `none` models `hash % capacity` with
`capacity = 0`. -/
def hash_table_remove (t : HashTable) (k : Key) :
    Option (HashTable × List Val) :=
  if t.capacity = 0 then none
  else
    match removeLoop t k (hash_table_fnv_1a k % t.capacity) t.capacity with
    | (none, _) => some (t, [])
    | (some index, _) =>
      some
        ({ t with
            keys := t.keys.set index none
            key_sizes := t.key_sizes.set index 0
            values := t.values.set index none
            size := t.size - 1 },
          [t.values.getD index none])

/-- Allocation oracle for the creation functions: the `malloc` of the table
header, and the three `calloc`s of the backing arrays (collapsed into one
flag: any failing combination yields null array pointers). -/
structure CreateOracle where
  tableAlloc : Bool
  arraysAlloc : Bool
  deriving DecidableEq, Repr

/-- The possible outcomes of a creation call, seen from the caller of a
function returning `hash_table_t *`: a null pointer, undefined behavior, or
a pointer to a table (whose backing arrays may themselves be null if the
`calloc`s failed — recorded by the flag). -/
inductive CreateResult where
  | nullPtr : CreateResult
  | ub : CreateResult
  | ptr : HashTable → Bool → CreateResult
  deriving DecidableEq, Repr

/-- The table `hash_table_create_with_parameters_and_destructor` builds when
every allocation succeeds: three zeroed arrays of `capacity` slots (`calloc`
zero-fill makes every key and value pointer `NULL` and every size 0) and
`size = 0`. -/
def createOk (capacity : Nat) (threshold factor : ℚ) : HashTable :=
  { capacity := capacity
    keys := List.replicate capacity none
    key_sizes := List.replicate capacity 0
    values := List.replicate capacity (none : Val)
    size := 0
    resize_threshold := threshold
    resize_factor := factor }

/-- Model of `hash_table_create_with_parameters_and_destructor`.  The C code
checks no allocation result: a failed header `malloc` is dereferenced
(undefined behavior), failed `calloc`s are stored as null array pointers and
the table is returned as if everything succeeded.  The destructor argument
only selects which cleanup function later operations call; it is not part of
the state the claims observe, so it is dropped here. -/
def hash_table_create_with_parameters_and_destructor (o : CreateOracle)
    (capacity : Nat) (threshold factor : ℚ) : CreateResult :=
  if o.tableAlloc = false then CreateResult.ub
  else if o.arraysAlloc = false then
    CreateResult.ptr
      { capacity := capacity, keys := [], key_sizes := [], values := []
        size := 0, resize_threshold := threshold, resize_factor := factor }
      true
  else CreateResult.ptr (createOk capacity threshold factor) false

def HASH_TABLE_DEFAULT_INITIAL_CAPACITY : Nat := 16

/-- The default threshold `0.5f`, as the exact rational `1/2` (explicit
numerator/denominator form, so that concrete runs reduce in the kernel). -/
def HASH_TABLE_DEFAULT_RESIZE_THRESHOLD : ℚ := Rat.mk' 1 2 (by decide) (by decide)

/-- The default factor `2.0f`, as the exact rational `2`. -/
def HASH_TABLE_DEFAULT_RESIZE_FACTOR : ℚ := Rat.mk' 2 1 (by decide) (by decide)

/-- Model of `hash_table_create_with_parameters` (passes a `NULL`
destructor). -/
def hash_table_create_with_parameters (o : CreateOracle) (capacity : Nat)
    (threshold factor : ℚ) : CreateResult :=
  hash_table_create_with_parameters_and_destructor o capacity threshold factor

/-- Model of `hash_table_create_with_destructor`. -/
def hash_table_create_with_destructor (o : CreateOracle) : CreateResult :=
  hash_table_create_with_parameters_and_destructor o
    HASH_TABLE_DEFAULT_INITIAL_CAPACITY HASH_TABLE_DEFAULT_RESIZE_THRESHOLD
    HASH_TABLE_DEFAULT_RESIZE_FACTOR

/-- Model of `hash_table_create`. -/
def hash_table_create (o : CreateOracle) : CreateResult :=
  hash_table_create_with_parameters_and_destructor o
    HASH_TABLE_DEFAULT_INITIAL_CAPACITY HASH_TABLE_DEFAULT_RESIZE_THRESHOLD
    HASH_TABLE_DEFAULT_RESIZE_FACTOR

/-- Model of `hash_table_insert_string`: the key is the C string's bytes
(`s`, which contains no 0 byte) plus its terminator, so the key length is
`strlen(key) + 1`. -/
def hash_table_insert_string (o : AllocOracle) (t : HashTable)
    (s : List Nat) (v : Val) : Option InsertResult :=
  hash_table_insert o t (s ++ [0]) v

/-- Model of `hash_table_get_string`. -/
def hash_table_get_string (t : HashTable) (s : List Nat) : Option Val :=
  hash_table_get t (s ++ [0])

/-- Model of `hash_table_contains_string`. -/
def hash_table_contains_string (t : HashTable) (s : List Nat) : Option Bool :=
  hash_table_contains t (s ++ [0])

/-- Model of `hash_table_remove_string`. -/
def hash_table_remove_string (t : HashTable) (s : List Nat) :
    Option (HashTable × List Val) :=
  hash_table_remove t (s ++ [0])

/-- Run one insert and keep the table (used to build concrete states; every
insert below is on a positive-capacity table, where `hash_table_insert`
always returns `some`). -/
def insertStep (o : AllocOracle) (t : HashTable) (kv : Key × Val) :
    HashTable :=
  match hash_table_insert o t kv.1 kv.2 with
  | some r => r.table
  | none => t

def insertList (o : AllocOracle) (t : HashTable) (l : List (Key × Val)) :
    HashTable :=
  l.foldl (insertStep o) t

/-- Run one remove and keep the table. -/
def removeStep (t : HashTable) (k : Key) : HashTable :=
  match hash_table_remove t k with
  | some p => p.1
  | none => t

def allocOK : AllocOracle := ⟨true, true⟩

/-- The table produced by `hash_table_create()` when every allocation
succeeds: capacity 16, threshold 0.5, factor 2.0, all slots empty. -/
def defaultTable : HashTable :=
  createOk HASH_TABLE_DEFAULT_INITIAL_CAPACITY HASH_TABLE_DEFAULT_RESIZE_THRESHOLD
    HASH_TABLE_DEFAULT_RESIZE_FACTOR

/-- A default table filled with eight distinct one-byte keys; its load is
exactly the threshold (8/16), so the very next insert triggers a resize. -/
def table8 : HashTable :=
  insertList allocOK defaultTable
    [([1], some 1), ([2], some 2), ([3], some 3), ([4], some 4),
     ([5], some 5), ([6], some 6), ([7], some 7), ([8], some 8)]

/-- The state after inserting keys `[5]` and `[21]` (which both hash to
index 0 modulo 16) into a default table and then removing `[5]`:
`[21]` sits in slot 1 behind the now-empty slot 0. -/
def tableC3 : HashTable :=
  removeStep (insertList allocOK defaultTable [([5], some 1), ([21], some 2)]) [5]

/-- Continuing from `tableC3`: re-inserting `[21]` lands in the hole at
slot 0 (a duplicate of the copy in slot 1), removing `[21]` deletes only the
slot-0 copy, and inserting `[5]` refills slot 0 — leaving the stale
`[21] ↦ 2` of slot 1 reachable again. -/
def tableC7 : HashTable :=
  insertStep allocOK (removeStep (insertStep allocOK tableC3 ([21], some 3)) [21])
    ([5], some 4)

/-- The exact rational 1/8 (an exactly representable `float`). -/
def qEighth : ℚ := Rat.mk' 1 8 (by decide) (by decide)

/-- The exact rational 9/8 (an exactly representable `float`). -/
def qNineEighths : ℚ := Rat.mk' 9 8 (by decide) (by decide)

/-- Two inserts into a table created with capacity 8, threshold 1/8 and
factor 9/8: the second insert grows capacity only from 8 to 9, leaving the
post-insert load 2/9 above the threshold. -/
def tableC2 : HashTable :=
  insertStep allocOK
    (insertStep allocOK (createOk 8 qEighth qNineEighths) ([1], some 1))
    ([2], some 2)

/-- A default table holding key `[1]` with a `NULL` value pointer. -/
def tableC4 : HashTable := insertStep allocOK defaultTable ([1], none)

/-- The table returned by a creation call with `initial_capacity = 0` (the
code performs no validation). -/
def table0 : HashTable :=
  createOk 0 HASH_TABLE_DEFAULT_RESIZE_THRESHOLD HASH_TABLE_DEFAULT_RESIZE_FACTOR

/-- A default table holding the two-byte key `[97, 98]` ("ab" without
terminator), which hashes to slot 10. -/
def tableC8 : HashTable := insertStep allocOK defaultTable ([97, 98], some 7)

/-- A default table holding key `[1]` (slot 12) with value 1; used as a
generic small succeeded-insert state. -/
def tableC2w : HashTable := insertStep allocOK defaultTable ([1], some 1)

/-! Helper lemmas about the shape of `hash_table_resize`, `insertCore` and
`hash_table_insert`, shared by the claim theorems below. -/

lemma insertTrigger_eq_false_iff (t : HashTable) :
    insertTrigger t = false ↔
      t.capacity ≠ 0 ∧ (t.size + 1 : ℚ) / (t.capacity : ℚ) ≤ t.resize_threshold := by
  have hden0 : t.resize_threshold.den ≠ 0 := t.resize_threshold.den_nz
  have hdenq : (0 : ℚ) < (t.resize_threshold.den : ℚ) := by
    exact_mod_cast Nat.pos_of_ne_zero hden0
  simp only [insertTrigger, Bool.or_eq_false_iff, beq_eq_false_iff_ne, ne_eq,
    decide_eq_false_iff_not, not_lt]
  constructor
  · rintro ⟨hc, hle⟩
    refine ⟨hc, ?_⟩
    have hcq : (0 : ℚ) < (t.capacity : ℚ) := by
      exact_mod_cast Nat.pos_of_ne_zero hc
    rw [← Rat.num_div_den t.resize_threshold, div_le_div_iff hcq hdenq]
    exact_mod_cast hle
  · rintro ⟨hc, hle⟩
    refine ⟨hc, ?_⟩
    have hcq : (0 : ℚ) < (t.capacity : ℚ) := by
      exact_mod_cast Nat.pos_of_ne_zero hc
    rw [← Rat.num_div_den t.resize_threshold, div_le_div_iff hcq hdenq] at hle
    exact_mod_cast hle

lemma rehash_foldl_capacity (t : HashTable) (l : List Nat) (acc : HashTable) :
    (l.foldl (rehashStep t) acc).capacity = acc.capacity := by
  induction l generalizing acc with
  | nil => rfl
  | cons i l ih =>
    rw [List.foldl_cons, ih]
    unfold rehashStep
    cases t.keys.getD i none <;> rfl

lemma resize_fail (o : AllocOracle) (t : HashTable) (n : Nat)
    (h : n ≤ t.capacity ∨ o.resizeAlloc = false) :
    hash_table_resize o t n = (true, t) := by
  unfold hash_table_resize
  rcases h with h | h
  · rw [if_pos h]
  · by_cases h2 : n ≤ t.capacity
    · rw [if_pos h2]
    · rw [if_neg h2, if_pos h]

lemma resize_ok (o : AllocOracle) (t : HashTable) (n : Nat)
    (hlt : t.capacity < n) (ha : o.resizeAlloc = true) :
    (hash_table_resize o t n).1 = false ∧ (hash_table_resize o t n).2.capacity = n := by
  unfold hash_table_resize
  rw [if_neg (not_le.mpr hlt), if_neg (by simp [ha])]
  exact ⟨rfl, by simpa using rehash_foldl_capacity t (List.range t.capacity) _⟩

lemma resize_fail_table (o : AllocOracle) (t : HashTable) (n : Nat)
    (h : (hash_table_resize o t n).1 = true) :
    (hash_table_resize o t n).2 = t := by
  by_cases h1 : n ≤ t.capacity
  · rw [resize_fail o t n (Or.inl h1)]
  · by_cases h2 : o.resizeAlloc = false
    · rw [resize_fail o t n (Or.inr h2)]
    · have := (resize_ok o t n (not_le.mp h1) (by simpa using h2)).1
      rw [this] at h
      exact absurd h (by simp)

lemma resize_success_inv (o : AllocOracle) (t : HashTable) (n : Nat)
    (h : (hash_table_resize o t n).1 = false) :
    t.capacity < n ∧ o.resizeAlloc = true := by
  by_cases h1 : n ≤ t.capacity
  · rw [resize_fail o t n (Or.inl h1)] at h
    exact absurd h (by simp)
  · by_cases h2 : o.resizeAlloc = false
    · rw [resize_fail o t n (Or.inr h2)] at h
      exact absurd h (by simp)
    · exact ⟨not_le.mp h1, by simpa using h2⟩

lemma insert_no_trigger (o : AllocOracle) (t : HashTable) (k : Key) (v : Val)
    (h : insertTrigger t = false) :
    hash_table_insert o t k v = insertCore o t k v := by
  unfold hash_table_insert
  rw [h]
  simp

lemma insert_trigger_fail (o : AllocOracle) (t : HashTable) (k : Key) (v : Val)
    (h : insertTrigger t = true)
    (hf : (hash_table_resize o t (growCapacity t)).1 = true) :
    hash_table_insert o t k v =
      some ⟨1, (hash_table_resize o t (growCapacity t)).2, []⟩ := by
  unfold hash_table_insert
  rw [h, hf]
  simp

lemma insert_trigger_ok (o : AllocOracle) (t : HashTable) (k : Key) (v : Val)
    (h : insertTrigger t = true)
    (hf : (hash_table_resize o t (growCapacity t)).1 = false) :
    hash_table_insert o t k v =
      insertCore o (hash_table_resize o t (growCapacity t)).2 k v := by
  unfold hash_table_insert
  rw [h, hf]
  simp

lemma insertCore_shape (o : AllocOracle) (t : HashTable) (k : Key) (v : Val)
    (r : InsertResult) (hr : insertCore o t k v = some r) :
    t.capacity ≠ 0 ∧ r.table.capacity = t.capacity ∧
      (r.ret = 0 → r.table.size ≤ t.size + 1) ∧ (r.ret = 1 → r.table = t) := by
  unfold insertCore at hr
  split at hr
  · exact absurd hr (by simp)
  next hc =>
    refine ⟨hc, ?_⟩
    split at hr
    · injection hr with hr2
      subst hr2
      exact ⟨rfl, fun _ => Nat.le_succ t.size, fun h => absurd h (by simp)⟩
    · split at hr
      · injection hr with hr2
        subst hr2
        exact ⟨rfl, fun _ => le_refl _, fun h => absurd h (by simp)⟩
      · injection hr with hr2
        subst hr2
        exact ⟨rfl, fun h => absurd h (by simp), fun _ => rfl⟩

lemma insertCore_update (o : AllocOracle) (t : HashTable) (k : Key) (v : Val)
    (i n : Nat) (hc : t.capacity ≠ 0)
    (hL : insertLoop t k (hash_table_fnv_1a k % t.capacity) t.capacity =
      (Sum.inl i, n)) :
    insertCore o t k v =
      some ⟨0, { t with values := t.values.set i v }, [t.values.getD i none]⟩ := by
  unfold insertCore
  rw [if_neg hc, hL]

/-! The claim theorems. -/

/-- C1: the claim says every insert that fails for allocation reasons leaves
the table exactly as before (same capacity, size and contents).  The code
violates this: in `table8` (eight entries, capacity 16) an insert of the
fresh key `[9]` whose key-copy `malloc` fails first performs the triggered
resize, returns failure 1, and leaves the table at capacity 32 — the header
comment "On failure, the hash table remains unchanged" is contradicted. -/
theorem C1_insert_fail_capacity_grown :
    table8.capacity = 16 ∧ table8.size = 8 ∧
    (hash_table_insert ⟨true, false⟩ table8 [9] (some 9)).map
      (fun r => (r.ret, r.table.capacity, r.table.size)) = some (1, 32, 8) := by
  decide

/-- C2 counterexample: a table created with threshold 1/8 ∈ (0,1] and factor
9/8 > 1 reaches, through a succeeding insert (the second one, which grows
capacity only from 8 to 9), a state whose load 2/9 exceeds the threshold —
refuting "size / capacity does not exceed resize_threshold immediately after
any insert that returns success". -/
theorem C2_load_exceeds_threshold :
    (0 < qEighth ∧ qEighth ≤ 1 ∧ 1 < qNineEighths) ∧
    (hash_table_insert allocOK
        (insertStep allocOK (createOk 8 qEighth qNineEighths) ([1], some 1))
        [2] (some 2)).map (·.ret) = some 0 ∧
    tableC2.size = 2 ∧ tableC2.capacity = 9 ∧
    tableC2.resize_threshold = qEighth ∧
    ¬ ((tableC2.size : ℚ) / (tableC2.capacity : ℚ) ≤ tableC2.resize_threshold) := by
  refine ⟨⟨?_, ?_, ?_⟩, by decide, by decide, by decide, by decide, ?_⟩
  · rw [qEighth, Rat.mk'_eq_divInt, Rat.divInt_eq_div]; norm_num
  · rw [qEighth, Rat.mk'_eq_divInt, Rat.divInt_eq_div]; norm_num
  · rw [qNineEighths, Rat.mk'_eq_divInt, Rat.divInt_eq_div]; norm_num
  · have h1 : tableC2.size = 2 := by decide
    have h2 : tableC2.capacity = 9 := by decide
    have h3 : tableC2.resize_threshold = qEighth := by decide
    rw [h1, h2, h3, qEighth, Rat.mk'_eq_divInt, Rat.divInt_eq_div]
    norm_num

/-- C2 amended: after a successful insert that triggered no resize the load
is at most the threshold; when a resize is triggered, the insert succeeds
only if capacity strictly increased (the post-insert load may still exceed
the threshold when one growth step is insufficient, as
`C2_load_exceeds_threshold` shows). -/
theorem C2_load_after_success (o : AllocOracle) (t : HashTable) (k : Key)
    (v : Val) (r : InsertResult) (hr : hash_table_insert o t k v = some r)
    (hret : r.ret = 0) :
    (insertTrigger t = false →
      (r.table.size : ℚ) / (r.table.capacity : ℚ) ≤ t.resize_threshold) ∧
    (insertTrigger t = true → t.capacity < r.table.capacity) := by
  constructor
  · intro htrig
    rw [insert_no_trigger o t k v htrig] at hr
    obtain ⟨hc, hcap, hsize, -⟩ := insertCore_shape o t k v r hr
    obtain ⟨-, hload⟩ := (insertTrigger_eq_false_iff t).mp htrig
    have hcq : (0 : ℚ) < (t.capacity : ℚ) := by
      exact_mod_cast Nat.pos_of_ne_zero hc
    rw [hcap]
    refine le_trans ?_ hload
    rw [div_le_div_iff_of_pos_right hcq]
    exact_mod_cast hsize hret
  · intro htrig
    cases hrs : (hash_table_resize o t (growCapacity t)).1 with
    | true =>
      rw [insert_trigger_fail o t k v htrig hrs] at hr
      injection hr with hr2
      rw [← hr2] at hret
      exact absurd hret (by simp)
    | false =>
      obtain ⟨hlt, -⟩ := resize_success_inv o t (growCapacity t) hrs
      rw [insert_trigger_ok o t k v htrig hrs] at hr
      obtain ⟨-, hcap, -, -⟩ := insertCore_shape o _ k v r hr
      rw [hcap, (resize_ok o t (growCapacity t) hlt
        (resize_success_inv o t (growCapacity t) hrs).2).2]
      exact hlt

/-- C2 witness: the amended theorem applied to inserting `[1]` into an empty
default table (no trigger: 1/16 ≤ 1/2). -/
theorem C2_load_after_success_witness :
    (insertTrigger defaultTable = false →
      (tableC2w.size : ℚ) / (tableC2w.capacity : ℚ) ≤
        defaultTable.resize_threshold) ∧
    (insertTrigger defaultTable = true →
      defaultTable.capacity < tableC2w.capacity) :=
  C2_load_after_success allocOK defaultTable [1] (some 1)
    ⟨0, tableC2w, []⟩ (by decide) rfl

/-- C3: the claim (round-trip: a key inserted and not since removed is
retrievable with its latest value) fails on the code because `remove` leaves
no tombstone.  Keys `[5]` and `[21]` both hash to slot 0 of a default table;
after inserting both and removing only `[5]`, the probe for `[21]` stops at
the emptied slot 0 and `get`/`contains` report it absent although slot 1
still holds it. -/
theorem C3_remove_breaks_probe_chain :
    tableC3.keys.contains (some [21]) = true ∧
    hash_table_get tableC3 [21] = some none ∧
    hash_table_contains tableC3 [21] = some false := by
  decide

/-- C4 counterexample: `contains` is not presence — a key stored with a
`NULL` value pointer is reported as not contained (and its `get` result is
indistinguishable from absence), because `contains` is literally
`get(...) != NULL`. -/
theorem C4_null_value_reads_absent :
    (hash_table_insert allocOK defaultTable [1] none).map (·.ret) = some 0 ∧
    tableC4.keys.contains (some [1]) = true ∧
    hash_table_contains tableC4 [1] = some false := by
  decide

/-- C4 amended: `contains` returns 1 exactly when `get` returns a non-NULL
value; this coincides with key presence only for keys stored with non-null
values. -/
theorem C4_contains_iff_get_some (t : HashTable) (k : Key) :
    hash_table_contains t k = some true ↔
      ∃ v : Nat, hash_table_get t k = some (some v) := by
  unfold hash_table_contains
  cases hg : hash_table_get t k with
  | none => simp
  | some v =>
    cases v with
    | none => simp
    | some x => simp

/-- C5 counterexample: a creation call whose array `calloc`s fail does not
return the no-table indicator (`NULL`); it returns a pointer to a table
whose backing arrays are null, as if creation had succeeded. -/
theorem C5_create_fail_not_null :
    hash_table_create_with_parameters_and_destructor ⟨true, false⟩ 16
        HASH_TABLE_DEFAULT_RESIZE_THRESHOLD HASH_TABLE_DEFAULT_RESIZE_FACTOR =
      CreateResult.ptr
        ⟨16, [], [], [], 0, HASH_TABLE_DEFAULT_RESIZE_THRESHOLD,
          HASH_TABLE_DEFAULT_RESIZE_FACTOR⟩ true ∧
    (∀ (t : HashTable) (b : Bool),
      CreateResult.ptr t b ≠ CreateResult.nullPtr) := by
  exact ⟨rfl, fun t b => by simp⟩

/-- C5 amended: no creation form ever returns the no-table indicator (a
failed header malloc is dereferenced — undefined behavior — and failed array
callocs yield a table with null arrays); when every allocation succeeds,
each creation form returns a table with three backing arrays of length
`initial_capacity`, all slots empty, and size 0, the three convenience
forms delegating to the fully parameterized one. -/
theorem C5_create_shape (o : CreateOracle) (cap : Nat) (θ f : ℚ) :
    hash_table_create_with_parameters_and_destructor o cap θ f ≠
      CreateResult.nullPtr ∧
    hash_table_create o =
      hash_table_create_with_parameters_and_destructor o
        HASH_TABLE_DEFAULT_INITIAL_CAPACITY HASH_TABLE_DEFAULT_RESIZE_THRESHOLD
        HASH_TABLE_DEFAULT_RESIZE_FACTOR ∧
    hash_table_create_with_destructor o =
      hash_table_create_with_parameters_and_destructor o
        HASH_TABLE_DEFAULT_INITIAL_CAPACITY HASH_TABLE_DEFAULT_RESIZE_THRESHOLD
        HASH_TABLE_DEFAULT_RESIZE_FACTOR ∧
    hash_table_create_with_parameters o cap θ f =
      hash_table_create_with_parameters_and_destructor o cap θ f ∧
    (o.tableAlloc = true → o.arraysAlloc = true →
      hash_table_create_with_parameters_and_destructor o cap θ f =
        CreateResult.ptr (createOk cap θ f) false ∧
      (createOk cap θ f).capacity = cap ∧ (createOk cap θ f).size = 0 ∧
      (createOk cap θ f).keys = List.replicate cap none ∧
      (createOk cap θ f).key_sizes = List.replicate cap 0 ∧
      (createOk cap θ f).values = List.replicate cap none) := by
  refine ⟨?_, rfl, rfl, rfl, fun h1 h2 => ⟨?_, rfl, rfl, rfl, rfl, rfl⟩⟩
  · unfold hash_table_create_with_parameters_and_destructor
    split
    · simp
    · split <;> simp
  · simp [hash_table_create_with_parameters_and_destructor, h1, h2]

/-- C5 witness: the amended theorem at a fully succeeding oracle and
capacity 3. -/
theorem C5_create_shape_witness :
    hash_table_create_with_parameters_and_destructor ⟨true, true⟩ 3
        HASH_TABLE_DEFAULT_RESIZE_THRESHOLD HASH_TABLE_DEFAULT_RESIZE_FACTOR ≠
      CreateResult.nullPtr ∧
    hash_table_create_with_parameters_and_destructor ⟨true, true⟩ 3
        HASH_TABLE_DEFAULT_RESIZE_THRESHOLD HASH_TABLE_DEFAULT_RESIZE_FACTOR =
      CreateResult.ptr
        (createOk 3 HASH_TABLE_DEFAULT_RESIZE_THRESHOLD
          HASH_TABLE_DEFAULT_RESIZE_FACTOR) false :=
  ⟨(C5_create_shape ⟨true, true⟩ 3 HASH_TABLE_DEFAULT_RESIZE_THRESHOLD
      HASH_TABLE_DEFAULT_RESIZE_FACTOR).1,
    ((C5_create_shape ⟨true, true⟩ 3 HASH_TABLE_DEFAULT_RESIZE_THRESHOLD
      HASH_TABLE_DEFAULT_RESIZE_FACTOR).2.2.2.2 rfl rfl).1⟩

/-- C6 counterexample: inserting the already-present key `[1]` into `table8`
(size 8, capacity 16) merely replaces its value (size stays 8, success), yet
capacity grows to 32, because the load check runs before the probe discovers
the key is present — refuting "an insert that only replaces the value ...
leaves capacity unchanged". -/
theorem C6_update_changes_capacity :
    table8.capacity = 16 ∧ table8.keys.contains (some [1]) = true ∧
    (hash_table_insert allocOK table8 [1] (some 99)).map
      (fun r => (r.ret, r.table.capacity, r.table.size)) = some (0, 32, 8) := by
  decide

/-- C6 amended: during an insert, capacity changes exactly when the
pre-probe load check triggers and the resize's allocation succeeds with a
strictly larger computed capacity — even when the insert merely updates an
existing key; an update that triggers no resize changes only the stored
value of the matched slot (same size, capacity, keys and key sizes). -/
theorem C6_capacity_change_iff (o : AllocOracle) (t : HashTable) (k : Key)
    (v : Val) (r : InsertResult) (hr : hash_table_insert o t k v = some r) :
    (r.table.capacity ≠ t.capacity ↔
      insertTrigger t = true ∧ o.resizeAlloc = true ∧
        t.capacity < growCapacity t) ∧
    (∀ i n, insertTrigger t = false →
      insertLoop t k (hash_table_fnv_1a k % t.capacity) t.capacity =
        (Sum.inl i, n) →
      r.ret = 0 ∧ r.table.size = t.size ∧ r.table.capacity = t.capacity ∧
        r.table.keys = t.keys ∧ r.table.key_sizes = t.key_sizes ∧
        r.table.values = t.values.set i v) := by
  constructor
  · constructor
    · intro hne
      cases htr : insertTrigger t with
      | false =>
        rw [insert_no_trigger o t k v htr] at hr
        exact absurd (insertCore_shape o t k v r hr).2.1 hne
      | true =>
        cases hrs : (hash_table_resize o t (growCapacity t)).1 with
        | true =>
          rw [insert_trigger_fail o t k v htr hrs] at hr
          injection hr with hr2
          rw [← hr2, resize_fail_table o t (growCapacity t) hrs] at hne
          exact absurd rfl hne
        | false =>
          obtain ⟨hlt, ha⟩ := resize_success_inv o t (growCapacity t) hrs
          exact ⟨rfl, ha, hlt⟩
    · rintro ⟨htr, ha, hlt⟩
      have hrs := resize_ok o t (growCapacity t) hlt ha
      rw [insert_trigger_ok o t k v htr hrs.1] at hr
      have hcap := (insertCore_shape o _ k v r hr).2.1
      rw [hcap, hrs.2]
      exact Nat.ne_of_gt hlt
  · intro i n htr hL
    have hc : t.capacity ≠ 0 := ((insertTrigger_eq_false_iff t).mp htr).1
    rw [insert_no_trigger o t k v htr, insertCore_update o t k v i n hc hL] at hr
    injection hr with hr2
    subst hr2
    exact ⟨rfl, rfl, rfl, rfl, rfl, rfl⟩

/-- C6 witness: the amended theorem at an update insert of key `[1]` (slot
12) into `tableC2w`, where no resize triggers. -/
theorem C6_capacity_change_iff_witness :
    ((⟨0, { tableC2w with values := tableC2w.values.set 12 (some 5) },
        [some 1]⟩ : InsertResult).table.capacity ≠ tableC2w.capacity ↔
      insertTrigger tableC2w = true ∧ allocOK.resizeAlloc = true ∧
        tableC2w.capacity < growCapacity tableC2w) ∧
    ((⟨0, { tableC2w with values := tableC2w.values.set 12 (some 5) },
        [some 1]⟩ : InsertResult).ret = 0 ∧
      (⟨0, { tableC2w with values := tableC2w.values.set 12 (some 5) },
        [some 1]⟩ : InsertResult).table.size = tableC2w.size ∧
      (⟨0, { tableC2w with values := tableC2w.values.set 12 (some 5) },
        [some 1]⟩ : InsertResult).table.capacity = tableC2w.capacity ∧
      (⟨0, { tableC2w with values := tableC2w.values.set 12 (some 5) },
        [some 1]⟩ : InsertResult).table.keys = tableC2w.keys ∧
      (⟨0, { tableC2w with values := tableC2w.values.set 12 (some 5) },
        [some 1]⟩ : InsertResult).table.key_sizes = tableC2w.key_sizes ∧
      (⟨0, { tableC2w with values := tableC2w.values.set 12 (some 5) },
        [some 1]⟩ : InsertResult).table.values =
        tableC2w.values.set 12 (some 5)) :=
  ⟨(C6_capacity_change_iff allocOK tableC2w [1] (some 5)
      ⟨0, { tableC2w with values := tableC2w.values.set 12 (some 5) },
        [some 1]⟩ (by decide)).1,
    (C6_capacity_change_iff allocOK tableC2w [1] (some 5)
      ⟨0, { tableC2w with values := tableC2w.values.set 12 (some 5) },
        [some 1]⟩ (by decide)).2 12 0 (by decide) (by decide)⟩

/-- C7: the claim (a removed key reads as absent, removing an absent key is
a no-op) fails on the code.  After insert `[5]`, insert `[21]` (same chain),
remove `[5]`, insert `[21]` again (which lands in the hole, creating a
duplicate), remove `[21]` (which deletes only the first copy) and insert
`[5]`, the key `[21]` — removed and never re-inserted afterwards — is
reported present with the stale value 2. -/
theorem C7_removed_key_reads_present :
    hash_table_get tableC7 [21] = some (some 2) ∧
    hash_table_contains tableC7 [21] = some true := by
  decide

/-- C8: per-slot key matching is injective — a slot matching one key never
matches a different key (different declared lengths fail the `key_sizes`
comparison, equal lengths with different bytes fail the byte comparison) —
and the string wrappers pass `strlen(key) + 1` bytes (content plus
terminator), so a string key differs from the binary key of the same
printable content without its terminator. -/
theorem C8_keys_distinct_by_length (t : HashTable) (i : Nat) (k1 k2 : Key)
    (hne : k1 ≠ k2) (h1 : slotMatches t i k1 = true) :
    slotMatches t i k2 = false ∧
    (∀ (o : AllocOracle) (s : List Nat) (v : Val),
      hash_table_insert_string o t s v = hash_table_insert o t (s ++ [0]) v) ∧
    (∀ s : List Nat,
      hash_table_get_string t s = hash_table_get t (s ++ [0]) ∧
      hash_table_contains_string t s = hash_table_contains t (s ++ [0]) ∧
      hash_table_remove_string t s = hash_table_remove t (s ++ [0]) ∧
      (s ++ [0]).length = s.length + 1 ∧ s ++ [0] ≠ s) := by
  refine ⟨?_, fun o s v => rfl, fun s => ⟨rfl, rfl, rfl, by simp, ?_⟩⟩
  · cases h2 : slotMatches t i k2 with
    | false => rfl
    | true =>
      exfalso
      apply hne
      have e1 : t.keys.getD i none = some k1 :=
        by simpa using (Bool.and_eq_true_iff.mp h1).2
      have e2 : t.keys.getD i none = some k2 :=
        by simpa using (Bool.and_eq_true_iff.mp h2).2
      exact Option.some.inj (e1.symm.trans e2)
  · intro hcontra
    have := congrArg List.length hcontra
    simp at this

/-- C8 witness: in `tableC8`, slot 10 matches the binary key `[97, 98]`
("ab", length 2) and therefore does not match the string key
`[97, 98, 0]` ("ab" with terminator, length 3). -/
theorem C8_keys_distinct_by_length_witness :
    slotMatches tableC8 10 [97, 98, 0] = false ∧
    (∀ (o : AllocOracle) (s : List Nat) (v : Val),
      hash_table_insert_string o tableC8 s v =
        hash_table_insert o tableC8 (s ++ [0]) v) ∧
    (∀ s : List Nat,
      hash_table_get_string tableC8 s = hash_table_get tableC8 (s ++ [0]) ∧
      hash_table_contains_string tableC8 s =
        hash_table_contains tableC8 (s ++ [0]) ∧
      hash_table_remove_string tableC8 s =
        hash_table_remove tableC8 (s ++ [0]) ∧
      (s ++ [0]).length = s.length + 1 ∧ s ++ [0] ≠ s) :=
  C8_keys_distinct_by_length tableC8 10 [97, 98] [97, 98, 0]
    (by decide) (by decide)

lemma getLoop_steps_le (t : HashTable) (k : Key) :
    ∀ fuel index, (getLoop t k index fuel).2 ≤ fuel := by
  intro fuel
  induction fuel with
  | zero => intro index; simp [getLoop]
  | succ m ih =>
    intro index
    unfold getLoop
    cases t.keys.getD index none with
    | none => simp
    | some _ =>
      by_cases hm : slotMatches t index k
      · simp [hm]
      · simpa [hm] using ih ((index + 1) % t.capacity)

lemma insertLoop_steps_le (t : HashTable) (k : Key) :
    ∀ fuel index, (insertLoop t k index fuel).2 ≤ fuel := by
  intro fuel
  induction fuel with
  | zero => intro index; simp [insertLoop]
  | succ m ih =>
    intro index
    unfold insertLoop
    cases t.keys.getD index none with
    | none => simp
    | some _ =>
      by_cases hm : slotMatches t index k
      · simp [hm]
      · simpa [hm] using ih ((index + 1) % t.capacity)

lemma removeLoop_steps_le (t : HashTable) (k : Key) :
    ∀ fuel index, (removeLoop t k index fuel).2 ≤ fuel := by
  intro fuel
  induction fuel with
  | zero => intro index; simp [removeLoop]
  | succ m ih =>
    intro index
    unfold removeLoop
    cases t.keys.getD index none with
    | none => simp
    | some _ =>
      by_cases hm : slotMatches t index k
      · simp [hm]
      · simpa [hm] using ih ((index + 1) % t.capacity)

lemma placeLoop_steps_le (keys : List (Option Key)) (cap : Nat) :
    ∀ fuel index, (placeLoop keys cap index fuel).2 ≤ fuel := by
  intro fuel
  induction fuel with
  | zero => intro index; simp [placeLoop]
  | succ m ih =>
    intro index
    unfold placeLoop
    cases keys.getD index none with
    | none => simp
    | some _ => simpa using ih ((index + 1) % cap)

/-- C9: every probe loop — the get/contains scan, the insert scan, the
remove scan and the resize placement scan — executes at most `capacity`
iterations from any start index in any table state (each loop starts with
fuel `capacity`, standing for the guard `iterations < capacity`). -/
theorem C9_probe_bounded (t : HashTable) (k : Key) (index : Nat) :
    (getLoop t k index t.capacity).2 ≤ t.capacity ∧
    (insertLoop t k index t.capacity).2 ≤ t.capacity ∧
    (removeLoop t k index t.capacity).2 ≤ t.capacity ∧
    (placeLoop t.keys t.capacity index t.capacity).2 ≤ t.capacity :=
  ⟨getLoop_steps_le t k t.capacity index,
    insertLoop_steps_le t k t.capacity index,
    removeLoop_steps_le t k t.capacity index,
    placeLoop_steps_le t.keys t.capacity t.capacity index⟩

/-- C10 counterexample: on the capacity-0 table that `create` hands back
without validation, `get` does reach the modulus-by-zero (modelled `none`),
but `insert` does not: its float load check yields `+inf`, the triggered
resize to capacity `(size_t)(0 * factor) = 0` fails (`0 <= 0`), and the
insert returns failure 1 before any modulus — refuting "the modulus-by-zero
branch of every subsequent lookup or insert is reachable". -/
theorem C10_insert_no_div_by_zero :
    hash_table_create_with_parameters_and_destructor ⟨true, true⟩ 0
        HASH_TABLE_DEFAULT_RESIZE_THRESHOLD HASH_TABLE_DEFAULT_RESIZE_FACTOR =
      CreateResult.ptr table0 false ∧
    hash_table_get table0 [1] = none ∧
    hash_table_insert allocOK table0 [1] (some 1) = some ⟨1, table0, []⟩ := by
  decide

/-- C10 amended: `create` performs no validation (capacity 0 is handed
back); on a capacity-0 table, `get`, `contains` and `remove` reach the
modulus-by-zero (undefined behavior, modelled `none`), while `insert`
returns failure 1 with the table unchanged, because the infinite float load
triggers a resize to capacity 0 which fails before any modulus. -/
theorem C10_capacity_zero_behavior (t : HashTable) (k : Key) (v : Val)
    (o : AllocOracle) (oc : CreateOracle) (θ f : ℚ) (h : t.capacity = 0) :
    hash_table_get t k = none ∧ hash_table_contains t k = none ∧
    hash_table_remove t k = none ∧
    hash_table_insert o t k v = some ⟨1, t, []⟩ ∧
    (oc.tableAlloc = true → oc.arraysAlloc = true →
      hash_table_create_with_parameters_and_destructor oc 0 θ f =
        CreateResult.ptr (createOk 0 θ f) false ∧
      (createOk 0 θ f).capacity = 0) := by
  have hget : hash_table_get t k = none := by
    unfold hash_table_get
    rw [if_pos h]
  refine ⟨hget, ?_, ?_, ?_, fun h1 h2 => ⟨?_, rfl⟩⟩
  · unfold hash_table_contains
    rw [hget]
    rfl
  · unfold hash_table_remove
    rw [if_pos h]
  · have htr : insertTrigger t = true := by
      simp [insertTrigger, h]
    have hgrow : growCapacity t = 0 := by
      simp [growCapacity, h]
    have hrz : hash_table_resize o t (growCapacity t) = (true, t) :=
      resize_fail o t _ (Or.inl (by rw [hgrow, h]))
    unfold hash_table_insert
    rw [htr, hrz]
    simp
  · simp [hash_table_create_with_parameters_and_destructor, h1, h2]

/-- C10 witness: the amended theorem at the concrete capacity-0 table. -/
theorem C10_capacity_zero_behavior_witness :
    hash_table_get table0 [2] = none ∧ hash_table_contains table0 [2] = none ∧
    hash_table_remove table0 [2] = none ∧
    hash_table_insert allocOK table0 [2] (some 1) = some ⟨1, table0, []⟩ ∧
    (hash_table_create_with_parameters_and_destructor ⟨true, true⟩ 0
        HASH_TABLE_DEFAULT_RESIZE_THRESHOLD HASH_TABLE_DEFAULT_RESIZE_FACTOR =
      CreateResult.ptr
        (createOk 0 HASH_TABLE_DEFAULT_RESIZE_THRESHOLD
          HASH_TABLE_DEFAULT_RESIZE_FACTOR) false ∧
      (createOk 0 HASH_TABLE_DEFAULT_RESIZE_THRESHOLD
        HASH_TABLE_DEFAULT_RESIZE_FACTOR).capacity = 0) := by
  have h := C10_capacity_zero_behavior table0 [2] (some 1) allocOK
    ⟨true, true⟩ HASH_TABLE_DEFAULT_RESIZE_THRESHOLD
    HASH_TABLE_DEFAULT_RESIZE_FACTOR rfl
  exact ⟨h.1, h.2.1, h.2.2.1, h.2.2.2.1, h.2.2.2.2 rfl rfl⟩
